import Mathlib

/-!
Verification of the floating-point raycaster backend (`raycaster_float.c`).

The C `float`/`double` arithmetic is modelled over the real numbers;
machine-integer narrowing conversions are modelled explicitly (truncation
toward zero followed by a two's-complement style wrap).  The packed map
`g_map` and the numeric constants live in headers that are not among the
source files, so the map is a parameter (a byte for every index) and the
constants are taken from the specification.
-/

open Real

/-- Modelled from the spec: map width in cells (`MAP_X = 64`); the constant
lives in a header that is not among the source files. -/
def MAP_X : ℕ := 64

/-- Modelled from the spec: map height in cells (`MAP_Y = 64`). -/
def MAP_Y : ℕ := 64

/-- Modelled from the spec: base-2 logarithm of the map width (`MAP_XS = 6`),
used as the shift amount `MAP_XS - 3` in the byte-index formula. -/
def MAP_XS : ℕ := 6

/-- Modelled from the spec: screen width in pixels (320). -/
def SCREEN_WIDTH : ℕ := 320

/-- Modelled from the spec: screen height in pixels (200). -/
def SCREEN_HEIGHT : ℕ := 200

/-- Modelled from the spec: half the screen height (100). -/
def HORIZON_HEIGHT : ℕ := 100

/-- Modelled from the spec: projection constant
`INV_FACTOR = SCREEN_WIDTH * 0.9 = 288`. -/
def INV_FACTOR : ℝ := 288

/-- Maximum number of DDA steps per search
(`const int maxDepth = 100` in `RayCasterFloatDistance`). -/
def maxDepth : ℕ := 100

/-- Truncation toward zero: the semantics of C's float-to-integer conversion
and of the integral part delivered by `modff`. -/
noncomputable def truncR (x : ℝ) : ℤ := if x < 0 then ⌈x⌉ else ⌊x⌋

/-- Fractional part carrying the sign of the argument, as returned by
`modff`. -/
noncomputable def fracf (x : ℝ) : ℝ := x - (truncR x : ℝ)

/-- Wrap an integer into `[0, 256)`, the effect of storing to a `uint8_t`. -/
def u8wrap (z : ℤ) : ℕ := (z % 256).toNat

/-- Narrow a real to `uint8_t`: truncate toward zero, then wrap.  For values
outside `[0, 256)` the C conversion is undefined behaviour; the wrap is the
conventional two's-complement reading of it. -/
noncomputable def f2u8 (x : ℝ) : ℕ := u8wrap (truncR x)

/-- Wrap an integer into `[0, 65536)`, the effect of storing to a
`uint16_t`. -/
def u16wrap (z : ℤ) : ℕ := (z % 65536).toNat

/-- Narrow a real to `uint16_t`: truncate toward zero, then wrap. -/
noncomputable def f2u16 (x : ℝ) : ℕ := u16wrap (truncR x)

/-- Reinterpret a `uint16_t` value as `int16_t` (the cast `(int16_t) screenX`
in `RayCasterFloatTrace`). -/
def i16cast (n : ℕ) : ℤ :=
  if n % 65536 < 32768 then (n % 65536 : ℤ) else (n % 65536 : ℤ) - 65536

/-- The in-bounds bit test of `RayCasterFloatIsWall` (raycaster_float.c lines
110-111): `g_map[(tileX >> 3) + (tileY << (MAP_XS - 3))] &
(1 << (8 - (tileX & 0x7)))`.  The map is a parameter giving the byte at every
index (reduced mod 256, since `g_map` holds `uint8_t`); the mask arithmetic
happens on promoted `int`s exactly as in C. -/
def isWallTile (map : ℕ → ℕ) (tileX tileY : ℕ) : Bool :=
  (map ((tileX >>> 3) + (tileY <<< (MAP_XS - 3))) % 256) &&&
      (1 <<< (8 - (tileX &&& 7))) != 0

/-- Shallow embedding of `RayCasterFloatIsWall` (raycaster_float.c lines
94-112): truncate the ray coordinates toward zero, treat tiles outside
`0 ≤ tile < MAP − 1` on either axis as solid, otherwise test the map bit. -/
noncomputable def RayCasterFloatIsWall (map : ℕ → ℕ) (rayX rayY : ℝ) : Bool :=
  let tileX : ℤ := truncR rayX
  let tileY : ℤ := truncR rayY
  if tileX < 0 ∨ tileY < 0 ∨ (MAP_X : ℤ) - 1 ≤ tileX ∨ (MAP_Y : ℤ) - 1 ≤ tileY then
    true
  else
    isWallTile map tileX.toNat tileY.toNat

/-- Modelled from the spec's words (§3 data model): cell `(x, y)` is solid iff
bit `y*MAP_X + x` of the packed map is set, bits counted MSB-first within each
byte.  Declared only to compare the spec's bit convention with the code's. -/
def specBitSet (map : ℕ → ℕ) (x y : ℕ) : Bool :=
  (map ((y * MAP_X + x) / 8) % 256) &&& (1 <<< (7 - (y * MAP_X + x) % 8)) != 0

/-- The macro `P2P_DISTANCE` (raycaster_float.c lines 22-24). -/
noncomputable def p2pDistance (x1 y1 x2 y2 : ℝ) : ℝ :=
  Real.sqrt ((x1 - x2) * (x1 - x2) + (y1 - y2) * (y1 - y2))

/-- Result of the two angle-normalisation loops at the top of
`RayCasterFloatDistance` (lines 129-134): repeatedly add or subtract `2π`
until the angle lies in `[0, 2π)`; over the reals that is reduction
modulo `2π`. -/
noncomputable def normAngle (a : ℝ) : ℝ := a - 2 * π * ⌊a / (2 * π)⌋

/-- State of one DDA search loop: the current intersection point, the recorded
hit distance (`0` is the no-hit sentinel), the step counter, and whether the
loop has exited through the `break` on a wall hit. -/
structure DDAState where
  rayX : ℝ
  rayY : ℝ
  hitDis : ℝ
  depth : ℕ
  done : Bool

/-- One iteration of the `while (depth < maxDepth)` search loop
(raycaster_float.c lines 171-180 and 209-218); a state whose loop guard has
already failed is left unchanged. -/
noncomputable def ddaBody (map : ℕ → ℕ) (px py xO yO : ℝ) (s : DDAState) : DDAState :=
  if s.depth < maxDepth ∧ s.done = false then
    if RayCasterFloatIsWall map s.rayX s.rayY then
      ⟨s.rayX, s.rayY, p2pDistance px py s.rayX s.rayY, s.depth, true⟩
    else
      ⟨s.rayX + xO, s.rayY + yO, s.hitDis, s.depth + 1, s.done⟩
  else s

/-- Run one DDA search: iterate the loop body `maxDepth` times (always enough
to reach the loop's exit) from the given start point and start depth, with the
hit distance initialised to the `0` sentinel. -/
noncomputable def ddaSearch (map : ℕ → ℕ) (px py rayX rayY xO yO : ℝ)
    (depth0 : ℕ) : DDAState :=
  (ddaBody map px py xO yO)^[maxDepth] ⟨rayX, rayY, 0, depth0, false⟩

/-- Setup and loop of the vertical-gridline search (raycaster_float.c lines
146-182): the first intersection with a vertical grid line and the per-step
offsets are chosen from the sign of `sin rayA` (with `yOffset = xOffset *
cotA`); a ray within `0.001` of axis-parallel skips the search by starting at
`depth = maxDepth`. -/
noncomputable def vertSearch (map : ℕ → ℕ) (px py rayA cotA : ℝ) : DDAState :=
  if Real.sin rayA > 0.001 then
    ddaSearch map px py ((truncR px : ℝ) + 1) (((truncR px : ℝ) + 1 - px) * cotA + py)
      1 cotA 0
  else if Real.sin rayA < -0.001 then
    ddaSearch map px py ((truncR px : ℝ) - 0.001) (((truncR px : ℝ) - 0.001 - px) * cotA + py)
      (-1) (-cotA) 0
  else
    ddaSearch map px py px py 0 0 maxDepth

/-- Setup and loop of the horizontal-gridline search (raycaster_float.c lines
184-218), symmetric to the vertical one with `cos` and `tanA` (and
`xOffset = yOffset * tanA`). -/
noncomputable def horiSearch (map : ℕ → ℕ) (px py rayA tanA : ℝ) : DDAState :=
  if Real.cos rayA > 0.001 then
    ddaSearch map px py (((truncR py : ℝ) + 1 - py) * tanA + px) ((truncR py : ℝ) + 1)
      tanA 1 0
  else if Real.cos rayA < -0.001 then
    ddaSearch map px py (((truncR py : ℝ) - 0.001 - py) * tanA + px) ((truncR py : ℝ) - 0.001)
      (-tanA) (-1) 0
  else
    ddaSearch map px py px py 0 0 maxDepth

/-- The three outputs of `RayCasterFloatDistance`: the returned distance plus
the values stored through the `hitOffset` and `hitDirection` pointers. -/
structure DistResult where
  hitOffset : ℝ
  hitDirection : Bool
  dist : ℝ

/-- Shallow embedding of `RayCasterFloatDistance` (raycaster_float.c lines
122-235): normalise the angle, run the two DDA searches, select the side by
`vertHitDis < horiHitDis` (vertical wins strictly), and return
`fmin(vertHitDis, horiHitDis)`. -/
noncomputable def RayCasterFloatDistance (map : ℕ → ℕ)
    (playerX playerY rayA0 : ℝ) : DistResult :=
  let rayA := normAngle rayA0
  let tanA := Real.tan rayA
  let cotA := 1 / tanA
  let v := vertSearch map playerX playerY rayA cotA
  let h := horiSearch map playerX playerY rayA tanA
  if v.hitDis < h.hitDis then
    ⟨v.rayY, true, min v.hitDis h.hitDis⟩
  else
    ⟨h.rayX, false, min v.hitDis h.hitDis⟩

/-- The derived state `RayCasterFloat` (raycaster_float.c lines 27-31). -/
structure RCFloat where
  playerX : ℝ
  playerY : ℝ
  playerA : ℝ

/-- The five per-column outputs of `RayCasterFloatTrace`, already narrowed to
their C widths (`uint8_t` for the first three, `uint16_t` for the last two). -/
structure TraceResult where
  screenY : ℕ
  textureNo : ℕ
  textureX : ℕ
  textureY : ℕ
  textureStep : ℕ

/-- The per-column ray-angle offset (raycaster_float.c lines 259-260). -/
noncomputable def columnDeltaAngle (screenX : ℕ) : ℝ :=
  Real.arctan (((i16cast screenX : ℝ) - (SCREEN_WIDTH : ℝ) / 2) /
    ((SCREEN_WIDTH : ℝ) / 2) * π / 4)

/-- The fisheye-corrected distance `lineDistance * cos(deltaAngle)` computed
by `RayCasterFloatTrace` (raycaster_float.c line 271). -/
noncomputable def traceDistance (map : ℕ → ℕ) (s : RCFloat) (screenX : ℕ) : ℝ :=
  (RayCasterFloatDistance map s.playerX s.playerY
      (s.playerA + columnDeltaAngle screenX)).dist *
    Real.cos (columnDeltaAngle screenX)

/-- Shallow embedding of `RayCasterFloatTrace` (raycaster_float.c lines
246-302).  The function receives the backend state and returns it together
with the five outputs; the C body never writes the state.  `textureX` and
`textureNo` are assigned before the `distance > 0` test and therefore keep
their values on every path; `textureY` and `textureStep` start at `0`. -/
noncomputable def RayCasterFloatTrace (map : ℕ → ℕ) (s : RCFloat) (screenX : ℕ) :
    RCFloat × TraceResult :=
  let r := RayCasterFloatDistance map s.playerX s.playerY
    (s.playerA + columnDeltaAngle screenX)
  let distance := traceDistance map s screenX
  let textureX := f2u8 (256 * fracf r.hitOffset)
  let textureNo := if r.hitDirection then 1 else 0
  if distance > 0 then
    let tmp := INV_FACTOR / distance
    let screenY1 := f2u8 tmp
    let txs := tmp * 2
    if txs ≠ 0 then
      let textureStep := f2u16 (256 / txs * 256)
      if txs > (SCREEN_HEIGHT : ℝ) then
        (s, ⟨HORIZON_HEIGHT, textureNo, textureX,
              f2u16 ((txs - (SCREEN_HEIGHT : ℝ)) / 2 * (256 / txs) * 256), textureStep⟩)
      else
        (s, ⟨screenY1, textureNo, textureX, 0, textureStep⟩)
    else
      (s, ⟨screenY1, textureNo, textureX, 0, 0⟩)
  else
    (s, ⟨0, textureNo, textureX, 0, 0⟩)

/-- Shallow embedding of `RayCasterFloatStart` (raycaster_float.c lines
310-322): convert the 16-bit pose units to map units and radians. -/
noncomputable def RayCasterFloatStart (playerX playerY : ℕ) (playerA : ℤ) : RCFloat :=
  { playerX := (playerX : ℝ) / 1024 * 4
    playerY := (playerY : ℝ) / 1024 * 4
    playerA := (playerA : ℝ) / 1024 * 2 * π }

/-- Function-pointer slots that can be installed in a `RayCaster`. -/
inductive RCSlot where
  | baseStart
  | baseTrace
  | baseDestruct
  | floatStart
  | floatTrace
  | floatDestruct
deriving DecidableEq

/-- Abstract view of the base `RayCaster` object: which function each slot
holds, and whether the `derived` pointer has been attached. -/
structure RayCasterModel where
  Start : RCSlot
  Trace : RCSlot
  Destruct : RCSlot
  derivedAttached : Bool
deriving DecidableEq

/-- Modelled from the spec: `RayCasterConstruct` lives in `raycaster.c`, which
is not among the source files.  Per the lifecycle contract it yields a base
raycaster with the base slots installed — in particular a `Destruct` that
releases the base storage — and no derived state attached. -/
def RayCasterConstruct : RayCasterModel :=
  ⟨RCSlot.baseStart, RCSlot.baseTrace, RCSlot.baseDestruct, false⟩

/-- Shallow embedding of `RayCasterFloatConstruct` (raycaster_float.c lines
68-87), parametrised by whether the `malloc` of the derived state succeeds.
Returns the constructed object (`none` is the C `NULL`) together with the
destructor slot invoked during construction, if any. -/
def RayCasterFloatConstruct (mallocOk : Bool) : Option RayCasterModel × Option RCSlot :=
  let rayCaster := RayCasterConstruct
  if mallocOk = false then
    (none, some rayCaster.Destruct)
  else
    (some { rayCaster with
              derivedAttached := true
              Start := RCSlot.floatStart
              Trace := RCSlot.floatTrace
              Destruct := RCSlot.floatDestruct },
     none)

/-- Test map: the single byte at index 16 holds `0xC0`; under the code's mask
convention this makes cells `(1, 2)` and `(2, 2)` read as solid. -/
def mapT : ℕ → ℕ := fun i => if i = 16 then 192 else 0

/-- Test map in which every byte is `0xFF`. -/
def mapFF : ℕ → ℕ := fun _ => 255

/-- Truncation toward zero agrees with the floor on nonnegative arguments. -/
theorem truncR_of_nonneg {x : ℝ} (h : 0 ≤ x) : truncR x = ⌊x⌋ :=
  if_neg (not_lt.mpr h)

/-- Compute a truncation from rational bounds. -/
theorem truncR_eq (z : ℤ) (x : ℝ) (h0 : 0 ≤ x) (h1 : (z : ℝ) ≤ x)
    (h2 : x < (z : ℝ) + 1) : truncR x = z := by
  rw [truncR_of_nonneg h0]
  exact Int.floor_eq_iff.mpr ⟨h1, h2⟩

theorem truncR_half : truncR (1 / 2 : ℝ) = 0 :=
  truncR_eq 0 _ (by norm_num) (by norm_num) (by norm_num)

theorem truncR_three_halves : truncR (3 / 2 : ℝ) = 1 :=
  truncR_eq 1 _ (by norm_num) (by norm_num) (by norm_num)

theorem truncR_two : truncR (2 : ℝ) = 2 :=
  truncR_eq 2 _ (by norm_num) (by norm_num) (by norm_num)

theorem truncR_five_halves : truncR (5 / 2 : ℝ) = 2 :=
  truncR_eq 2 _ (by norm_num) (by norm_num) (by norm_num)

theorem truncR_eleven_halves : truncR (11 / 2 : ℝ) = 5 :=
  truncR_eq 5 _ (by norm_num) (by norm_num) (by norm_num)

theorem truncR_129_halves : truncR (129 / 2 : ℝ) = 64 :=
  truncR_eq 64 _ (by norm_num) (by norm_num) (by norm_num)

theorem truncR_128 : truncR (128 : ℝ) = 128 :=
  truncR_eq 128 _ (by norm_num) (by norm_num) (by norm_num)

/-- A byte value has no bit in common with the mask `256 = 1 << 8`: the mask
produced by the code's formula for `x % 8 = 0` can never select a map bit. -/
theorem byte_and_256 (b : ℕ) (hb : b < 256) : b &&& 256 = 0 := by
  apply Nat.eq_of_testBit_eq
  intro i
  rw [Nat.testBit_and, Nat.zero_testBit]
  rcases eq_or_ne i 8 with rfl | h
  · have hbit : b.testBit 8 = false := Nat.testBit_lt_two_pow (by norm_num at hb ⊢; omega)
    simp [hbit]
  · have hbit : (256 : ℕ).testBit i = false := by
      rw [show (256 : ℕ) = 2 ^ 8 by norm_num, Nat.testBit_two_pow]
      simp [Ne.symm h]
    simp [hbit]

/-- On an in-bounds tile, `RayCasterFloatIsWall` is the raw bit test. -/
theorem isWall_in_bounds (map : ℕ → ℕ) (tx ty : ℕ) (hx : tx < 63) (hy : ty < 63)
    (rx ry : ℝ) (h1 : truncR rx = tx) (h2 : truncR ry = ty) :
    RayCasterFloatIsWall map rx ry = isWallTile map tx ty := by
  simp only [RayCasterFloatIsWall, h1, h2]
  rw [if_neg]
  · simp
  · push_neg
    refine ⟨by positivity, by positivity, ?_, ?_⟩ <;>
      · simp only [MAP_X, MAP_Y]
        push_cast
        omega

/-- A state whose loop guard has failed is a fixed point of the loop body. -/
theorem ddaBody_id_of_guard_off (map : ℕ → ℕ) (px py xO yO : ℝ) (s : DDAState)
    (hg : ¬(s.depth < maxDepth ∧ s.done = false)) :
    ddaBody map px py xO yO s = s := by
  unfold ddaBody
  exact if_neg hg

/-- After enough iterations of the loop body the guard has failed: the depth
counter grows by one on every active non-hit step, and a hit freezes the
state. -/
theorem dda_guard_off (map : ℕ → ℕ) (px py xO yO : ℝ) :
    ∀ (k : ℕ) (s : DDAState), maxDepth ≤ s.depth + k →
      maxDepth ≤ ((ddaBody map px py xO yO)^[k] s).depth ∨
        ((ddaBody map px py xO yO)^[k] s).done = true := by
  intro k
  induction k with
  | zero =>
    intro s h
    simp only [Function.iterate_zero, id]
    left
    omega
  | succ k ih =>
    intro s h
    rw [Function.iterate_succ_apply]
    by_cases hg : s.depth < maxDepth ∧ s.done = false
    · by_cases hw : RayCasterFloatIsWall map s.rayX s.rayY
      · have hb : ddaBody map px py xO yO s =
            ⟨s.rayX, s.rayY, p2pDistance px py s.rayX s.rayY, s.depth, true⟩ := by
          unfold ddaBody
          rw [if_pos hg, if_pos hw]
        rw [hb, Function.iterate_fixed]
        · right
          rfl
        · exact ddaBody_id_of_guard_off _ _ _ _ _ _ (by simp)
      · have hb : ddaBody map px py xO yO s =
            ⟨s.rayX + xO, s.rayY + yO, s.hitDis, s.depth + 1, s.done⟩ := by
          unfold ddaBody
          rw [if_pos hg, if_neg hw]
        rw [hb]
        exact ih _ (by simp only []; omega)
    · rw [ddaBody_id_of_guard_off _ _ _ _ _ _ hg,
        Function.iterate_fixed (ddaBody_id_of_guard_off _ _ _ _ _ _ hg)]
      by_cases hd : s.depth < maxDepth
      · right
        rcases not_and_or.mp hg with h1 | h2
        · exact absurd hd h1
        · simpa using h2
      · left
        omega

/-- A search that starts at `depth = maxDepth` (the skipped, axis-parallel
case) never runs the loop body. -/
theorem ddaSearch_skip (map : ℕ → ℕ) (px py rX rY xO yO : ℝ) :
    ddaSearch map px py rX rY xO yO maxDepth = ⟨rX, rY, 0, maxDepth, false⟩ := by
  unfold ddaSearch
  exact Function.iterate_fixed
    (ddaBody_id_of_guard_off _ _ _ _ _ _ (by simp)) _

/-- A search whose very first probe point is a wall stops there with the
point-to-point distance recorded. -/
theorem ddaSearch_hit0 (map : ℕ → ℕ) (px py rX rY xO yO : ℝ)
    (hw : RayCasterFloatIsWall map rX rY = true) :
    ddaSearch map px py rX rY xO yO 0 =
      ⟨rX, rY, p2pDistance px py rX rY, 0, true⟩ := by
  unfold ddaSearch
  have h100 : maxDepth = 99 + 1 := by norm_num [maxDepth]
  rw [h100, Function.iterate_succ_apply]
  have hb : ddaBody map px py xO yO ⟨rX, rY, 0, 0, false⟩ =
      ⟨rX, rY, p2pDistance px py rX rY, 0, true⟩ := by
    unfold ddaBody
    rw [if_pos (by exact ⟨by norm_num [maxDepth], rfl⟩), if_pos hw]
  rw [hb]
  exact Function.iterate_fixed (ddaBody_id_of_guard_off _ _ _ _ _ _ (by simp)) _

/-- The normalisation loops leave an angle already in `[0, 2π)` unchanged. -/
theorem normAngle_of_Ico {a : ℝ} (h0 : 0 ≤ a) (h1 : a < 2 * π) : normAngle a = a := by
  unfold normAngle
  have hp : (0 : ℝ) < 2 * π := by positivity
  have hf : ⌊a / (2 * π)⌋ = 0 :=
    Int.floor_eq_zero_iff.mpr
      (Set.mem_Ico.mpr ⟨div_nonneg h0 hp.le, (div_lt_one hp).mpr h1⟩)
  rw [hf]
  simp

/-- An axis-parallel ray (sine within the epsilon band) skips the vertical
search, leaving the start point and the zero sentinel. -/
theorem vertSearch_skip (map : ℕ → ℕ) (px py rayA cotA : ℝ)
    (h1 : ¬Real.sin rayA > 0.001) (h2 : ¬Real.sin rayA < -0.001) :
    vertSearch map px py rayA cotA = ⟨px, py, 0, maxDepth, false⟩ := by
  unfold vertSearch
  rw [if_neg h1, if_neg h2, ddaSearch_skip]

theorem isWall_mapT_1_2 : RayCasterFloatIsWall mapT (3 / 2) 2 = true := by
  rw [isWall_in_bounds mapT 1 2 (by norm_num) (by norm_num) _ _
    truncR_three_halves truncR_two]
  decide

theorem isWall_mapT_2_2 : RayCasterFloatIsWall mapT 2 2 = true := by
  rw [isWall_in_bounds mapT 2 2 (by norm_num) (by norm_num) _ _
    truncR_two truncR_two]
  decide

theorem p2pA : p2pDistance (3 / 2) (3 / 2) (3 / 2) 2 = 1 / 2 := by
  unfold p2pDistance
  rw [show ((3 / 2 : ℝ) - 3 / 2) * ((3 / 2 : ℝ) - 3 / 2) +
      ((3 / 2 : ℝ) - 2) * ((3 / 2 : ℝ) - 2) = (1 / 2) ^ 2 by norm_num]
  exact Real.sqrt_sq (by norm_num)

theorem p2pB : p2pDistance (3 / 2) (3 / 2) 2 2 = Real.sqrt (1 / 2) := by
  unfold p2pDistance
  rw [show ((3 / 2 : ℝ) - 2) * ((3 / 2 : ℝ) - 2) +
      ((3 / 2 : ℝ) - 2) * ((3 / 2 : ℝ) - 2) = 1 / 2 by norm_num]

theorem one_le_sqrt_two : (1 : ℝ) ≤ Real.sqrt 2 := by
  rw [show (1 : ℝ) = Real.sqrt 1 by simp]
  exact Real.sqrt_le_sqrt (by norm_num)

/-- For the axis-aligned ray `rayA = 0` the vertical search is skipped
(`sin 0` falls inside the epsilon band), so its sentinel stays `0`. -/
theorem vertSearchA : vertSearch mapT (3 / 2) (3 / 2) 0 (1 / Real.tan 0) =
    ⟨3 / 2, 3 / 2, 0, maxDepth, false⟩ :=
  vertSearch_skip _ _ _ _ _ (by norm_num [Real.sin_zero]) (by norm_num [Real.sin_zero])

/-- For the axis-aligned ray `rayA = 0` from `(1.5, 1.5)` the horizontal
search hits cell `(1, 2)` at its first probe point `(1.5, 2)`, at distance
`0.5`. -/
theorem horiSearchA : horiSearch mapT (3 / 2) (3 / 2) 0 (Real.tan 0) =
    ⟨3 / 2, 2, 1 / 2, 0, true⟩ := by
  unfold horiSearch
  rw [if_pos (by norm_num [Real.cos_zero]), truncR_three_halves]
  norm_num [Real.tan_zero]
  rw [ddaSearch_hit0 _ _ _ _ _ _ _ isWall_mapT_1_2, p2pA]

/-- Evaluation of `RayCasterFloatDistance` for a ray pointing exactly along
`+x` from `(1.5, 1.5)` on the test map: the vertical search is skipped (its
sentinel stays `0`), the horizontal search hits cell `(1, 2)` at distance
`0.5`, and the comparison `vertHitDis < horiHitDis` selects the vertical
side, reporting `hitDirection = true`, `hitOffset = playerY` and distance
`fmin(0, 0.5) = 0`. -/
theorem distanceA : RayCasterFloatDistance mapT (3 / 2) (3 / 2) 0 = ⟨3 / 2, true, 0⟩ := by
  have hn : normAngle (0 : ℝ) = 0 := normAngle_of_Ico le_rfl (by positivity)
  simp only [RayCasterFloatDistance, hn, vertSearchA, horiSearchA]
  rw [if_pos (by norm_num : (0 : ℝ) < 1 / 2), min_eq_left (by norm_num : (0 : ℝ) ≤ 1 / 2)]

/-- Evaluation of `RayCasterFloatDistance` for the diagonal ray `rayA = π/4`
from `(1.5, 1.5)` on the test map: both searches hit cell `(2, 2)` at the
first probe, at distance `√(1/2)`; the tie goes to the horizontal side. -/
theorem distanceB : RayCasterFloatDistance mapT (3 / 2) (3 / 2) (π / 4) =
    ⟨2, false, Real.sqrt (1 / 2)⟩ := by
  have hn : normAngle (π / 4) = π / 4 :=
    normAngle_of_Ico (by positivity) (by linarith [Real.pi_pos])
  have hs : Real.sin (π / 4) > 0.001 := by
    rw [Real.sin_pi_div_four]
    linarith [one_le_sqrt_two]
  have hc : Real.cos (π / 4) > 0.001 := by
    rw [Real.cos_pi_div_four]
    linarith [one_le_sqrt_two]
  have hv : vertSearch mapT (3 / 2) (3 / 2) (π / 4) (1 / Real.tan (π / 4)) =
      ⟨2, 2, Real.sqrt (1 / 2), 0, true⟩ := by
    unfold vertSearch
    rw [if_pos hs, truncR_three_halves, Real.tan_pi_div_four]
    norm_num only
    rw [ddaSearch_hit0 _ _ _ _ _ _ _ isWall_mapT_2_2, p2pB]
  have hh : horiSearch mapT (3 / 2) (3 / 2) (π / 4) (Real.tan (π / 4)) =
      ⟨2, 2, Real.sqrt (1 / 2), 0, true⟩ := by
    unfold horiSearch
    rw [if_pos hc, truncR_three_halves, Real.tan_pi_div_four]
    norm_num only
    rw [ddaSearch_hit0 _ _ _ _ _ _ _ isWall_mapT_2_2, p2pB]
  simp only [RayCasterFloatDistance, hn, hv, hh]
  rw [if_neg (lt_irrefl _), min_self]

/-- The centre column looks straight ahead: its angle offset is zero. -/
theorem columnDeltaAngle_160 : columnDeltaAngle 160 = 0 := by
  unfold columnDeltaAngle
  norm_num [i16cast, SCREEN_WIDTH, Real.arctan_zero]

theorem traceDistanceA : traceDistance mapT ⟨3 / 2, 3 / 2, 0⟩ 160 = 0 := by
  unfold traceDistance
  rw [columnDeltaAngle_160]
  dsimp only
  rw [add_zero, distanceA]
  simp

theorem traceDistanceB : traceDistance mapT ⟨3 / 2, 3 / 2, π / 4⟩ 160 = Real.sqrt (1 / 2) := by
  unfold traceDistance
  rw [columnDeltaAngle_160]
  dsimp only
  rw [add_zero, distanceB]
  simp

theorem texXA : f2u8 (256 * fracf (3 / 2)) = 128 := by
  unfold fracf
  rw [truncR_three_halves]
  norm_num
  unfold f2u8
  rw [truncR_128]
  decide

/-- Full evaluation of `RayCasterFloatTrace` at the axis-aligned pose: the
distance is the sentinel `0`, so the column takes the `distance ≤ 0` path,
yet `textureNo` and `textureX` keep the search values `1` and `128`. -/
theorem traceA : (RayCasterFloatTrace mapT ⟨3 / 2, 3 / 2, 0⟩ 160).2 = ⟨0, 1, 128, 0, 0⟩ := by
  simp only [RayCasterFloatTrace, columnDeltaAngle_160, traceDistanceA]
  rw [if_neg (by norm_num : ¬(0 : ℝ) > 0)]
  dsimp only
  rw [add_zero, distanceA]
  simp [texXA]

/-- Masking with `7` is reduction mod `8`. -/
theorem and7_eq_mod8 (x : ℕ) : x &&& 7 = x % 8 := by
  have h : (7 : ℕ) = 2 ^ 3 - 1 := by norm_num
  rw [h, Nat.and_pow_two_sub_one_eq_mod]

/-- What the code's in-bounds bit test actually computes, in terms of the
spec's MSB-first convention: for `x % 8 = 0` the mask is `1 << 8 = 256`,
which selects no bit of a byte, and for `x % 8 ≥ 1` the tested bit is the one
the spec assigns to cell `(x − 1, y)`. -/
theorem isWallTile_eq_spec (map : ℕ → ℕ) (x y : ℕ) :
    isWallTile map x y = if x % 8 = 0 then false else specBitSet map (x - 1) y := by
  by_cases h8 : x % 8 = 0
  · rw [if_pos h8]
    unfold isWallTile
    rw [and7_eq_mod8, h8]
    have hb : map ((x >>> 3) + (y <<< (MAP_XS - 3))) % 256 < 256 :=
      Nat.mod_lt _ (by norm_num)
    rw [show (1 <<< (8 - 0) : ℕ) = 256 by decide, byte_and_256 _ hb]
    decide
  · rw [if_neg h8]
    unfold isWallTile specBitSet
    rw [and7_eq_mod8, Nat.shiftRight_eq_div_pow, Nat.shiftLeft_eq]
    rw [show (2 : ℕ) ^ 3 = 8 by norm_num, show (2 : ℕ) ^ (MAP_XS - 3) = 8 by norm_num [MAP_XS]]
    simp only [MAP_X]
    have hidx : (y * 64 + (x - 1)) / 8 = x / 8 + y * 8 := by omega
    have hmask : 7 - (y * 64 + (x - 1)) % 8 = 8 - x % 8 := by omega
    rw [hidx, hmask]

/-- A real in `[0, 100]` narrows to a `uint8_t` value of at most `100`. -/
theorem f2u8_le (x : ℝ) (h0 : 0 ≤ x) (h1 : x ≤ 100) : f2u8 x ≤ 100 := by
  unfold f2u8 u8wrap
  rw [truncR_of_nonneg h0]
  have hf0 : 0 ≤ ⌊x⌋ := Int.floor_nonneg.mpr h0
  have hf1 : ⌊x⌋ ≤ 100 := by
    have h := Int.floor_le_floor h1
    rwa [show ⌊(100 : ℝ)⌋ = 100 by
      rw [show (100 : ℝ) = ((100 : ℤ) : ℝ) by norm_num, Int.floor_intCast]] at h
  rw [Int.emod_eq_of_lt hf0 (by omega)]
  omega

/-- The trace never writes the pose. -/
theorem trace_fst (map : ℕ → ℕ) (s : RCFloat) (screenX : ℕ) :
    (RayCasterFloatTrace map s screenX).1 = s := by
  simp only [RayCasterFloatTrace]
  split_ifs <;> rfl

/-- When the unclamped half-height exceeds the horizon the overshoot branch
is taken and the final `screenY` is exactly `HORIZON_HEIGHT`. -/
theorem trace_overshoot (map : ℕ → ℕ) (s : RCFloat) (screenX : ℕ)
    (h : (HORIZON_HEIGHT : ℝ) < INV_FACTOR / traceDistance map s screenX) :
    (RayCasterFloatTrace map s screenX).2.screenY = HORIZON_HEIGHT := by
  have h100 : (100 : ℝ) < INV_FACTOR / traceDistance map s screenX := by
    rw [show ((HORIZON_HEIGHT : ℕ) : ℝ) = 100 by norm_num [HORIZON_HEIGHT]] at h
    exact h
  have hd : traceDistance map s screenX > 0 := by
    by_contra hle
    push_neg at hle
    have hnp : INV_FACTOR / traceDistance map s screenX ≤ 0 := by
      rcases lt_or_eq_of_le hle with hlt | heq
      · exact le_of_lt (div_neg_of_pos_of_neg (by norm_num [INV_FACTOR]) hlt)
      · rw [heq, div_zero]
    linarith
  have htxs : INV_FACTOR / traceDistance map s screenX * 2 > (SCREEN_HEIGHT : ℝ) := by
    rw [show ((SCREEN_HEIGHT : ℕ) : ℝ) = 200 by norm_num [SCREEN_HEIGHT]]
    linarith
  have hne : INV_FACTOR / traceDistance map s screenX * 2 ≠ 0 := by
    have : (0 : ℝ) < INV_FACTOR / traceDistance map s screenX := by linarith
    positivity
  simp only [RayCasterFloatTrace]
  rw [if_pos hd, if_pos hne, if_pos htxs]

/-- The final `screenY` of a trace never exceeds `HORIZON_HEIGHT`. -/
theorem trace_screenY_le (map : ℕ → ℕ) (s : RCFloat) (screenX : ℕ) :
    (RayCasterFloatTrace map s screenX).2.screenY ≤ HORIZON_HEIGHT := by
  by_cases hd : traceDistance map s screenX > 0
  · have htmp : 0 < INV_FACTOR / traceDistance map s screenX :=
      div_pos (by norm_num [INV_FACTOR]) hd
    by_cases hover : INV_FACTOR / traceDistance map s screenX * 2 > (SCREEN_HEIGHT : ℝ)
    · have hne : INV_FACTOR / traceDistance map s screenX * 2 ≠ 0 := by positivity
      simp only [RayCasterFloatTrace]
      rw [if_pos hd, if_pos hne, if_pos hover]
    · have hne : INV_FACTOR / traceDistance map s screenX * 2 ≠ 0 := by positivity
      simp only [RayCasterFloatTrace]
      rw [if_pos hd, if_pos hne, if_neg hover]
      have hle : INV_FACTOR / traceDistance map s screenX ≤ 100 := by
        have h2 : INV_FACTOR / traceDistance map s screenX * 2 ≤ (SCREEN_HEIGHT : ℝ) :=
          not_lt.mp hover
        rw [show ((SCREEN_HEIGHT : ℕ) : ℝ) = 200 by norm_num [SCREEN_HEIGHT]] at h2
        linarith
      simpa [HORIZON_HEIGHT] using f2u8_le _ htmp.le hle
  · simp only [RayCasterFloatTrace]
    rw [if_neg hd]
    exact Nat.zero_le _

/-- For a positive fisheye-corrected distance, the projection branch computes
the texture fields from the pre-clamp full height `txs`. -/
theorem trace_projection_branches (map : ℕ → ℕ) (s : RCFloat) (screenX : ℕ)
    (h : 0 < traceDistance map s screenX) :
    (RayCasterFloatTrace map s screenX).2.textureStep =
      f2u16 (256 / (INV_FACTOR / traceDistance map s screenX * 2) * 256) ∧
    ((SCREEN_HEIGHT : ℝ) < INV_FACTOR / traceDistance map s screenX * 2 →
      (RayCasterFloatTrace map s screenX).2.screenY = HORIZON_HEIGHT ∧
      (RayCasterFloatTrace map s screenX).2.textureY =
        f2u16 ((INV_FACTOR / traceDistance map s screenX * 2 - (SCREEN_HEIGHT : ℝ)) / 2 *
          (256 / (INV_FACTOR / traceDistance map s screenX * 2)) * 256)) ∧
    (¬(SCREEN_HEIGHT : ℝ) < INV_FACTOR / traceDistance map s screenX * 2 →
      (RayCasterFloatTrace map s screenX).2.textureY = 0) := by
  have htmp : 0 < INV_FACTOR / traceDistance map s screenX :=
    div_pos (by norm_num [INV_FACTOR]) h
  have hne : INV_FACTOR / traceDistance map s screenX * 2 ≠ 0 := by positivity
  by_cases hover : INV_FACTOR / traceDistance map s screenX * 2 > (SCREEN_HEIGHT : ℝ)
  · simp only [RayCasterFloatTrace]
    rw [if_pos h, if_pos hne, if_pos hover]
    exact ⟨rfl, fun _ => ⟨rfl, rfl⟩, fun hc => absurd hover hc⟩
  · simp only [RayCasterFloatTrace]
    rw [if_pos h, if_pos hne, if_neg hover]
    exact ⟨rfl, fun hc => absurd hc hover, fun _ => rfl⟩

/-- Claim C1, counterexample: the in-bounds cell `(0, 2)` has its spec bit
(bit `2·MAP_X + 0`, MSB-first) set on the test map, yet the code's formula
reads the cell as non-solid — for `x % 8 = 0` the mask `1 << 8 = 256` lies
outside the byte, so the claimed equivalence between the source formula and
the MSB-first convention fails. -/
theorem isWall_msb_convention_cex :
    specBitSet mapT 0 2 = true ∧
    RayCasterFloatIsWall mapT (1 / 2) (5 / 2) = false := by
  constructor
  · decide
  · rw [isWall_in_bounds mapT 0 2 (by norm_num) (by norm_num) _ _
      truncR_half truncR_five_halves]
    decide

/-- Claim C1 (amended): on every in-bounds cell the source formula
`map[(x >> 3) + (y << (MAP_XS − 3))] & (1 << (8 − (x & 7)))` tests, in the
spec's MSB-first counting, the bit of cell `(x − 1, y)` — that is, packed bit
`y·MAP_X + x − 1` — when `x % 8 ≥ 1`, and tests no bit at all (the cell always
reads non-solid) when `x % 8 = 0`, because the mask `1 << 8` exceeds a byte. -/
theorem isWall_bit_semantics (map : ℕ → ℕ) (x y : ℕ) (rx ry : ℝ)
    (hx : x < MAP_X - 1) (hy : y < MAP_Y - 1)
    (htx : truncR rx = x) (hty : truncR ry = y) :
    RayCasterFloatIsWall map rx ry =
      if x % 8 = 0 then false else specBitSet map (x - 1) y := by
  have hx63 : x < 63 := by simpa [MAP_X] using hx
  have hy63 : y < 63 := by simpa [MAP_Y] using hy
  rw [isWall_in_bounds map x y hx63 hy63 rx ry htx hty]
  exact isWallTile_eq_spec map x y

/-- Claim C1, witness for the amended statement at cell `(2, 2)` of the test
map, probed at the interior point `(2.5, 2.5)`. -/
theorem isWall_bit_semantics_witness :
    (2 < MAP_X - 1 ∧ 2 < MAP_Y - 1 ∧ truncR (5 / 2 : ℝ) = 2) ∧
    RayCasterFloatIsWall mapT (5 / 2) (5 / 2) =
      if 2 % 8 = 0 then false else specBitSet mapT (2 - 1) 2 :=
  ⟨⟨by norm_num [MAP_X], by norm_num [MAP_Y], truncR_five_halves⟩,
   isWall_bit_semantics mapT 2 2 (5 / 2) (5 / 2) (by norm_num [MAP_X])
     (by norm_num [MAP_Y]) truncR_five_halves truncR_five_halves⟩

/-- Claim C2: with the ray exactly along `+x` from `(1.5, 1.5)` on the test
map, the vertical search finds no wall (sentinel `0`) while the horizontal
search finds one at distance `0.5`; the claim demands the horizontal side be
selected with its positive distance, but the code's comparison
`vertHitDis < horiHitDis` selects the no-hit vertical side, reporting
`hitDirection = true`, `hitOffset = playerY = 1.5`, and returns
`fmin(0, 0.5) = 0`. -/
theorem distance_zero_sentinel_bug :
    (vertSearch mapT (3 / 2) (3 / 2) 0 (1 / Real.tan 0)).hitDis = 0 ∧
    (horiSearch mapT (3 / 2) (3 / 2) 0 (Real.tan 0)).hitDis = 1 / 2 ∧
    RayCasterFloatDistance mapT (3 / 2) (3 / 2) 0 = ⟨3 / 2, true, 0⟩ := by
  refine ⟨?_, ?_, distanceA⟩
  · rw [vertSearchA]
  · rw [horiSearchA]

/-- Claim C3, counterexample: at the axis-aligned pose the fisheye-corrected
distance is `0 ≤ 0`, yet the emitted `textureNo` is `1` and `textureX` is
`128` — the texture fields are not all zero as the claim states. -/
theorem trace_zero_distance_cex :
    traceDistance mapT ⟨3 / 2, 3 / 2, 0⟩ 160 ≤ 0 ∧
    (RayCasterFloatTrace mapT ⟨3 / 2, 3 / 2, 0⟩ 160).2 = ⟨0, 1, 128, 0, 0⟩ :=
  ⟨le_of_eq traceDistanceA, traceA⟩

/-- Claim C3 (amended): when the fisheye-corrected distance is not positive
the column emits `screenY = 0`, `textureY = 0` and `textureStep = 0`, while
`textureX` and `textureNo` keep the values computed from the ray search
before the distance test. -/
theorem trace_zero_distance_outputs (map : ℕ → ℕ) (s : RCFloat) (screenX : ℕ)
    (h : traceDistance map s screenX ≤ 0) :
    (RayCasterFloatTrace map s screenX).2 =
      ⟨0,
       if (RayCasterFloatDistance map s.playerX s.playerY
             (s.playerA + columnDeltaAngle screenX)).hitDirection then 1 else 0,
       f2u8 (256 * fracf (RayCasterFloatDistance map s.playerX s.playerY
             (s.playerA + columnDeltaAngle screenX)).hitOffset),
       0, 0⟩ := by
  simp only [RayCasterFloatTrace]
  rw [if_neg (not_lt.mpr h)]

/-- Claim C3, witness for the amended statement at the axis-aligned pose. -/
theorem trace_zero_distance_outputs_witness :
    traceDistance mapT ⟨3 / 2, 3 / 2, 0⟩ 160 ≤ 0 ∧
    (RayCasterFloatTrace mapT ⟨3 / 2, 3 / 2, 0⟩ 160).2 =
      ⟨0,
       if (RayCasterFloatDistance mapT (3 / 2) (3 / 2)
             (0 + columnDeltaAngle 160)).hitDirection then 1 else 0,
       f2u8 (256 * fracf (RayCasterFloatDistance mapT (3 / 2) (3 / 2)
             (0 + columnDeltaAngle 160)).hitOffset),
       0, 0⟩ :=
  ⟨le_of_eq traceDistanceA,
   trace_zero_distance_outputs mapT ⟨3 / 2, 3 / 2, 0⟩ 160 (le_of_eq traceDistanceA)⟩

/-- Claim C4: for every pose and column, `0 ≤ screenY ≤ HORIZON_HEIGHT`, and
whenever the unclamped half-height `INV_FACTOR / distance` exceeds
`HORIZON_HEIGHT` the overshoot branch rewrites `screenY` to exactly
`HORIZON_HEIGHT`. -/
theorem trace_screenY_bounded (map : ℕ → ℕ) (s : RCFloat) (screenX : ℕ) :
    0 ≤ (RayCasterFloatTrace map s screenX).2.screenY ∧
    (RayCasterFloatTrace map s screenX).2.screenY ≤ HORIZON_HEIGHT ∧
    ((HORIZON_HEIGHT : ℝ) < INV_FACTOR / traceDistance map s screenX →
      (RayCasterFloatTrace map s screenX).2.screenY = HORIZON_HEIGHT) :=
  ⟨Nat.zero_le _, trace_screenY_le map s screenX, trace_overshoot map s screenX⟩

/-- Claim C4, witness at the diagonal pose `(1.5, 1.5, π/4)`, whose unclamped
half-height `288·√2` exceeds the horizon, so the clamp fires. -/
theorem trace_screenY_bounded_witness :
    (HORIZON_HEIGHT : ℝ) < INV_FACTOR / traceDistance mapT ⟨3 / 2, 3 / 2, π / 4⟩ 160 ∧
    (RayCasterFloatTrace mapT ⟨3 / 2, 3 / 2, π / 4⟩ 160).2.screenY = HORIZON_HEIGHT := by
  have hp : 0 < Real.sqrt (1 / 2) := Real.sqrt_pos.mpr (by norm_num)
  have hs1 : Real.sqrt (1 / 2) ≤ 1 := Real.sqrt_le_one.mpr (by norm_num)
  have h : (HORIZON_HEIGHT : ℝ) < INV_FACTOR / traceDistance mapT ⟨3 / 2, 3 / 2, π / 4⟩ 160 := by
    rw [traceDistanceB, lt_div_iff₀ hp,
      show ((HORIZON_HEIGHT : ℕ) : ℝ) = 100 by norm_num [HORIZON_HEIGHT],
      show INV_FACTOR = (288 : ℝ) from rfl]
    linarith [hs1]
  exact ⟨h, (trace_screenY_bounded mapT ⟨3 / 2, 3 / 2, π / 4⟩ 160).2.2 h⟩

/-- Claim C5, counterexample: the probe point `(0.5, 5.5)` has integer floor
`0 ≤ 0` in `x`, which the claim says must read solid; but the cell `(0, 5)`
is in-bounds for the code, and even on the all-`0xFF` map the `x % 8 = 0`
mask makes it read non-solid. -/
theorem isWall_floor_zero_cex :
    truncR (1 / 2 : ℝ) ≤ 0 ∧
    RayCasterFloatIsWall mapFF (1 / 2) (11 / 2) = false := by
  refine ⟨by rw [truncR_half], ?_⟩
  rw [isWall_in_bounds mapFF 0 5 (by norm_num) (by norm_num) _ _
    truncR_half truncR_eleven_halves]
  decide

/-- Claim C5 (amended): a coordinate is treated as solid without consulting
the map exactly when its truncated-toward-zero tile is out of bounds —
`tile < 0` or `tile ≥ MAP − 1` on either axis; tiles with coordinate `0` are
in-bounds and go to the map bit test. -/
theorem isWall_out_of_bounds_solid (map : ℕ → ℕ) (rx ry : ℝ)
    (h : truncR rx < 0 ∨ truncR ry < 0 ∨ (MAP_X : ℤ) - 1 ≤ truncR rx ∨
      (MAP_Y : ℤ) - 1 ≤ truncR ry) :
    RayCasterFloatIsWall map rx ry = true := by
  simp only [RayCasterFloatIsWall]
  rw [if_pos h]

/-- Claim C5, witness at a point beyond the right map edge. -/
theorem isWall_out_of_bounds_solid_witness :
    ((MAP_X : ℤ) - 1 ≤ truncR (129 / 2 : ℝ)) ∧
    RayCasterFloatIsWall mapFF (129 / 2) (1 / 2) = true := by
  have h : (MAP_X : ℤ) - 1 ≤ truncR (129 / 2 : ℝ) := by
    rw [truncR_129_halves]
    norm_num [MAP_X]
  exact ⟨h, isWall_out_of_bounds_solid mapFF _ _ (Or.inr (Or.inr (Or.inl h)))⟩

/-- Claim C6: for a positive fisheye-corrected distance, `textureStep` is
`(256 / fullH) · 256` narrowed to `uint16_t`; when `fullH` exceeds the screen
height the column is clamped to the horizon and `textureY` is recomputed from
the pre-clamp `fullH`, otherwise `textureY = 0`. -/
theorem trace_projection_formulas (map : ℕ → ℕ) (s : RCFloat) (screenX : ℕ)
    (h : 0 < traceDistance map s screenX) :
    (RayCasterFloatTrace map s screenX).2.textureStep =
      f2u16 (256 / (INV_FACTOR / traceDistance map s screenX * 2) * 256) ∧
    ((SCREEN_HEIGHT : ℝ) < INV_FACTOR / traceDistance map s screenX * 2 →
      (RayCasterFloatTrace map s screenX).2.screenY = HORIZON_HEIGHT ∧
      (RayCasterFloatTrace map s screenX).2.textureY =
        f2u16 ((INV_FACTOR / traceDistance map s screenX * 2 - (SCREEN_HEIGHT : ℝ)) / 2 *
          (256 / (INV_FACTOR / traceDistance map s screenX * 2)) * 256)) ∧
    (¬(SCREEN_HEIGHT : ℝ) < INV_FACTOR / traceDistance map s screenX * 2 →
      (RayCasterFloatTrace map s screenX).2.textureY = 0) :=
  trace_projection_branches map s screenX h

/-- Claim C6, witness at the diagonal pose, where the distance `√(1/2)` is
positive. -/
theorem trace_projection_formulas_witness :
    0 < traceDistance mapT ⟨3 / 2, 3 / 2, π / 4⟩ 160 ∧
    (RayCasterFloatTrace mapT ⟨3 / 2, 3 / 2, π / 4⟩ 160).2.textureStep =
      f2u16 (256 / (INV_FACTOR / traceDistance mapT ⟨3 / 2, 3 / 2, π / 4⟩ 160 * 2) * 256) := by
  have h : 0 < traceDistance mapT ⟨3 / 2, 3 / 2, π / 4⟩ 160 := by
    rw [traceDistanceB]
    exact Real.sqrt_pos.mpr (by norm_num)
  exact ⟨h, (trace_projection_formulas mapT ⟨3 / 2, 3 / 2, π / 4⟩ 160 h).1⟩

/-- Claim C7: iterating the DDA loop body `maxDepth = 100` times already
reaches the loop's exit — further iterations change nothing, and after
`maxDepth` iterations the guard has failed (the depth counter has reached
`maxDepth` or a wall hit ended the search) — so each search runs at most
`maxDepth` iterations and the trace terminates. -/
theorem dda_loop_bounded (map : ℕ → ℕ) (px py xO yO : ℝ) (s : DDAState) (n : ℕ)
    (hn : maxDepth ≤ n) :
    (ddaBody map px py xO yO)^[n] s = (ddaBody map px py xO yO)^[maxDepth] s ∧
    (maxDepth ≤ ((ddaBody map px py xO yO)^[maxDepth] s).depth ∨
      ((ddaBody map px py xO yO)^[maxDepth] s).done = true) := by
  have hoff := dda_guard_off map px py xO yO maxDepth s (by omega)
  have hfix : ddaBody map px py xO yO ((ddaBody map px py xO yO)^[maxDepth] s) =
      (ddaBody map px py xO yO)^[maxDepth] s := by
    apply ddaBody_id_of_guard_off
    rcases hoff with h | h
    · exact fun hc => absurd hc.1 (not_lt.mpr h)
    · intro hc
      rw [h] at hc
      exact Bool.noConfusion hc.2
  constructor
  · have hsplit : n = (n - maxDepth) + maxDepth := by omega
    rw [hsplit, Function.iterate_add_apply, Function.iterate_fixed hfix]
  · exact hoff

/-- Claim C7, witness: 150 iterations from a fresh state agree with 100. -/
theorem dda_loop_bounded_witness :
    maxDepth ≤ 150 ∧
    ((ddaBody mapT 0 0 0 0)^[150] ⟨0, 0, 0, 0, false⟩ =
        (ddaBody mapT 0 0 0 0)^[maxDepth] ⟨0, 0, 0, 0, false⟩ ∧
      (maxDepth ≤ ((ddaBody mapT 0 0 0 0)^[maxDepth] ⟨0, 0, 0, 0, false⟩).depth ∨
        ((ddaBody mapT 0 0 0 0)^[maxDepth] ⟨0, 0, 0, 0, false⟩).done = true)) :=
  ⟨by norm_num [maxDepth],
   dda_loop_bounded mapT 0 0 0 0 ⟨0, 0, 0, 0, false⟩ 150 (by norm_num [maxDepth])⟩

/-- Claim C8: a trace leaves the stored pose unchanged, and a second trace of
the same column with no intervening `Start` returns identical outputs. -/
theorem trace_pure_idempotent (map : ℕ → ℕ) (s : RCFloat) (screenX : ℕ) :
    (RayCasterFloatTrace map s screenX).1 = s ∧
    (RayCasterFloatTrace map (RayCasterFloatTrace map s screenX).1 screenX).2 =
      (RayCasterFloatTrace map s screenX).2 :=
  ⟨trace_fst map s screenX, by rw [trace_fst map s screenX]⟩

/-- Claim C9: when the derived-state allocation fails the constructor invokes
the base raycaster's own `Destruct` (releasing the partially built object)
and returns `NULL`; on success all three float slots are installed and the
derived state is attached. -/
theorem construct_alloc_failure_cleanup :
    RayCasterFloatConstruct false = (none, some RayCasterConstruct.Destruct) ∧
    RayCasterConstruct.Destruct = RCSlot.baseDestruct ∧
    (RayCasterFloatConstruct true).2 = none ∧
    ∃ rc, (RayCasterFloatConstruct true).1 = some rc ∧
      rc.Start = RCSlot.floatStart ∧ rc.Trace = RCSlot.floatTrace ∧
      rc.Destruct = RCSlot.floatDestruct ∧ rc.derivedAttached = true :=
  ⟨rfl, rfl, rfl, ⟨_, rfl, rfl, rfl, rfl, rfl⟩⟩

/-- Claim C10: at the reachable pose `(1.5, 1.5, π/4)` on the test map the
value `INV_FACTOR / distance = 288·√2 ≈ 407.3` stored to the `uint8_t`
`*screenY` before the overshoot branch exceeds `255` (an out-of-range
float-to-`uint8_t` conversion), although the branch then overwrites the slot
with `HORIZON_HEIGHT`. -/
theorem trace_narrowing_overflow :
    (255 : ℝ) < INV_FACTOR / traceDistance mapT ⟨3 / 2, 3 / 2, π / 4⟩ 160 ∧
    (RayCasterFloatTrace mapT ⟨3 / 2, 3 / 2, π / 4⟩ 160).2.screenY = HORIZON_HEIGHT := by
  have hp : 0 < Real.sqrt (1 / 2) := Real.sqrt_pos.mpr (by norm_num)
  have hs1 : Real.sqrt (1 / 2) ≤ 1 := Real.sqrt_le_one.mpr (by norm_num)
  have h255 : (255 : ℝ) < INV_FACTOR / traceDistance mapT ⟨3 / 2, 3 / 2, π / 4⟩ 160 := by
    rw [traceDistanceB, lt_div_iff₀ hp, show INV_FACTOR = (288 : ℝ) from rfl]
    linarith [hs1]
  refine ⟨h255, trace_overshoot _ _ _ ?_⟩
  have : ((HORIZON_HEIGHT : ℕ) : ℝ) = 100 := by norm_num [HORIZON_HEIGHT]
  rw [this]
  linarith
